import Mathlib

/-!
# Verification of `exthttp` (nikoksr/errors)

A shallow embedding of `exthttp/ext_http.go`: the wrapper type `withHTTPCode`,
its constructor `WrapWithHTTPCode`, the accessor `GetHTTPCode`, the methods of
the wrapper and its wire encoder / decoder. The parts of the library the
wrapper plugs into and that are declared outside the sources (chain search,
wire protocol, formatter, OS error predicates) are modelled from the
specification; every such definition says so.

Conventions
* Go `error` interface values are values of `GoError`; `GoError.nil` is the nil
  interface value.
* Go `int` is taken at 64 bits and embedded in `Int`; `uint32` is embedded in
  `Nat`, conversions are written with an explicit `% 2^32`.
* A Go panic (failed type assertion, method call through a nil interface) is the
  result `none` of an `Option`-valued function.
* The `context.Context` argument of the encoder and decoder is ignored by the
  source (`_`) and is dropped.
-/

set_option autoImplicit false

namespace exthttp

/-! ## Data model -/

/-- Modelled from the spec: the generated protobuf message `EncodedHTTPCode`
(its declaration is not among the sources); the decoder and encoder use its
single field `Code uint32`. -/
structure EncodedHTTPCode where
  /-- The field `Code uint32`. -/
  Code : Nat
deriving DecidableEq, Repr

/-- Modelled from the spec: a `proto.Message` interface value (the typed payload
blob of a wire record): the nil interface, a pointer to an `EncodedHTTPCode`, or
a message of any other type. -/
inductive ProtoMessage where
  /-- The nil `proto.Message`. -/
  | absent
  /-- A `*EncodedHTTPCode` pointing to a message (what unmarshalling yields). -/
  | http (wp : EncodedHTTPCode)
  /-- A message of some other type. -/
  | other (typeName : String) (bytes : List Nat)
deriving DecidableEq, Repr

/-- Go `error` values. `ofWithHTTPCode cause code` is a `*withHTTPCode` of the
source (`type withHTTPCode struct { cause error; code int }`).
Modelled from the spec: `node` stands for an error value of any other type, the
ErrorValue of section 3: a type identity, its own message fragment, the detail
lines it contributes and zero-or-one cause (`nil` for a root cause). -/
inductive GoError where
  /-- The nil error. -/
  | nil
  /-- An error of a type other than `*withHTTPCode`. -/
  | node (typeKey : String) (msg : String) (details : List String) (cause : GoError)
  /-- A `*withHTTPCode`. -/
  | ofWithHTTPCode (cause : GoError) (code : Int)
deriving DecidableEq, Repr

/-- The wrapper type of the source: `type withHTTPCode struct { cause error; code int }`. -/
structure withHTTPCode where
  /-- Field `cause error`. -/
  cause : GoError
  /-- Field `code int`. -/
  code : Int
deriving DecidableEq, Repr

/-- A `*withHTTPCode` seen as an `error` interface value. -/
def withHTTPCode.toError (w : withHTTPCode) : GoError :=
  .ofWithHTTPCode w.cause w.code

/-- The type assertion `w, ok := err.(*withHTTPCode)`. -/
def asWithHTTPCode : GoError → Option withHTTPCode
  | .ofWithHTTPCode cause code => some ⟨cause, code⟩
  | _ => none

/-- Go `fmt` verb `%d` on an `int`: optional minus sign, then the decimal digits. -/
def Sprintf_d (i : Int) : String :=
  if i < 0 then "-" ++ Nat.repr i.natAbs else Nat.repr i.natAbs

/-- Go conversion `uint32(x)` of an `int`: the value modulo `2^32`. -/
def uint32 (x : Int) : Nat := (x % 4294967296).toNat

/-- Go conversion `int(x)` of a `uint32` (64-bit `int`): the same number. -/
def intOfUint32 (x : Nat) : Int := Int.ofNat x

/-! ## The source functions -/

/-- Source: `WrapWithHTTPCode adds a HTTP code to an existing error.` -/
def WrapWithHTTPCode (err : GoError) (code : Int) : GoError :=
  if err = .nil then .nil
  else (withHTTPCode.mk err code).toError

/-- Source: `func (w *withHTTPCode) Cause() error { return w.cause }` -/
def withHTTPCode.Cause (w : withHTTPCode) : GoError := w.cause

/-- Source: `func (w *withHTTPCode) Unwrap() error { return w.cause }` -/
def withHTTPCode.Unwrap (w : withHTTPCode) : GoError := w.cause

/-- Modelled from the spec: `errbase.UnwrapOnce`, the `Cause(e)` of section 4.1:
the immediate predecessor of a node, `nil` when there is none. On a
`*withHTTPCode` it is the method `Cause()` of the source. -/
def errbase.UnwrapOnce : GoError → GoError
  | .nil => .nil
  | .node _ _ _ cause => cause
  | .ofWithHTTPCode cause code => (withHTTPCode.mk cause code).Cause

/-- Modelled from the spec: `markers.If`, the `FindFirst(e, predicate)` of
section 4.2: it tries `e`, `Cause(e)`, `Cause(Cause(e))`, ... outermost first and
returns the first match, or no match when the chain is exhausted. -/
def markers.If {α : Type} : GoError → (GoError → Option α) → Option α
  | .nil, _ => none
  | .node k m ds cause, pred =>
    match pred (.node k m ds cause) with
    | some v => some v
    | none => markers.If cause pred
  | .ofWithHTTPCode cause code, pred =>
    match pred (.ofWithHTTPCode cause code) with
    | some v => some v
    | none => markers.If cause pred

/-- Source: `GetHTTPCode retrieves the HTTP code from a stack of causes.` The
predicate handed to `markers.If` is the type assertion `err.(*withHTTPCode)`
answering `w.code`. -/
def GetHTTPCode (err : GoError) (defaultCode : Int) : Int :=
  match markers.If err (fun e =>
      match asWithHTTPCode e with
      | some w => some w.code
      | none => none) with
  | some v => v
  | none => defaultCode

/-- The method call `err.Error()` through the interface. On a `*withHTTPCode` it
is the source: `func (w *withHTTPCode) Error() string { return w.cause.Error() }`;
on the nil interface it panics.
Modelled from the spec: on a `node` it is the simple text of section 4.3, the
own fragment and the text of the cause separated by `": "`, an empty fragment
contributing nothing. -/
def GoError.Error : GoError → Option String
  | .nil => none
  | .node _ msg _ cause =>
    if cause = .nil then some msg
    else (GoError.Error cause).map fun s => if msg = "" then s else msg ++ ": " ++ s
  | .ofWithHTTPCode cause _ => GoError.Error cause

/-- Source: `func (w *withHTTPCode) Error() string { return w.cause.Error() }` -/
def withHTTPCode.Error (w : withHTTPCode) : Option String := w.cause.Error

/-- Modelled from the spec: an `errors.Printer` (the interface is declared outside
the sources): whether it is in detail (verbose) mode, and the lines printed
through it so far, oldest first. -/
structure Printer where
  /-- What `p.Detail()` answers. -/
  detail : Bool
  /-- The output of the `Printf` calls so far. -/
  out : List String
deriving DecidableEq, Repr

/-- Method `p.Detail()`. -/
def Printer.Detail (p : Printer) : Bool := p.detail

/-- Method `p.Printf(...)`, given the formatted text. -/
def Printer.Printf (p : Printer) (s : String) : Printer :=
  { p with out := p.out ++ [s] }

/-- Source: `func (w *withHTTPCode) SafeFormatError(p errors.Printer) (next error)`:
the printer after the call and the returned `next`. -/
def withHTTPCode.SafeFormatError (w : withHTTPCode) (p : Printer) : Printer × GoError :=
  let p1 := if p.Detail then p.Printf ("http code: " ++ Sprintf_d w.code) else p
  (p1, w.cause)

/-- Source: `func encodeWithHTTPCode(_ context.Context, err error) (string, []string, proto.Message)`;
`none` is the panic of the type assertion `err.(*withHTTPCode)`. -/
def encodeWithHTTPCode (err : GoError) : Option (String × List String × ProtoMessage) :=
  match asWithHTTPCode err with
  | none => none
  | some w =>
    let details := ["HTTP " ++ Sprintf_d w.code]
    let payload := ProtoMessage.http ⟨uint32 w.code⟩
    some ("", details, payload)

/-- Source: `func decodeWithHTTPCode(_ context.Context, cause error, _ string, _ []string,
payload proto.Message) error`; `none` is the panic of the type assertion
`payload.(*EncodedHTTPCode)`. -/
def decodeWithHTTPCode (cause : GoError) (_msg : String) (_details : List String)
    (payload : ProtoMessage) : Option GoError :=
  match payload with
  | .http wp => some (withHTTPCode.mk cause (intOfUint32 wp.Code)).toError
  | _ => none

/-- The `init` function of the source registers the encoder and the decoder
under `errbase.GetTypeKey((*withHTTPCode)(nil))`.
Modelled from the spec: the value of that key (`errbase.GetTypeKey` is declared
outside the sources): the package path and the type name. -/
def withHTTPCodeTypeKey : String :=
  "github.com/nikoksr/errors/exthttp/*exthttp.withHTTPCode"

/-! ## The chain and the wire protocol (sections 3, 4.1 and 4.4 of the spec) -/

/-- The chain of an error: the error, its cause, the cause of its cause, ...
outermost first (the nodes reached by iterating `errbase.UnwrapOnce`). -/
def chain : GoError → List GoError
  | .nil => []
  | .node k m ds cause => .node k m ds cause :: chain cause
  | .ofWithHTTPCode cause code => .ofWithHTTPCode cause code :: chain cause

/-- Whether a node is a `*withHTTPCode`. -/
def isWithHTTPCode (e : GoError) : Bool := (asWithHTTPCode e).isSome

/-- The codes stored in the `*withHTTPCode` nodes of a chain, outermost first. -/
def storedCodes (e : GoError) : List Int :=
  (chain e).filterMap fun n => (asWithHTTPCode n).map fun w => w.code

/-- A chain as the constructors build it: every `*withHTTPCode` has a non-nil
cause (the values `WrapWithHTTPCode` returns), and no node of another type
carries the type key of `*withHTTPCode` (type keys identify types). -/
def wellFormed : GoError → Bool
  | .nil => true
  | .node k _ _ cause => decide (k ≠ withHTTPCodeTypeKey) && wellFormed cause
  | .ofWithHTTPCode cause _ => decide (cause ≠ .nil) && wellFormed cause

/-- Modelled from the spec: `errbase.GetTypeKey`, the type key of the dynamic
type of an error (section 3: a type identity used for wire encoding). -/
def errbase.GetTypeKey : GoError → String
  | .nil => ""
  | .node k _ _ _ => k
  | .ofWithHTTPCode _ _ => withHTTPCodeTypeKey

/-- Modelled from the spec: `Message(e)` of section 4.1, the own contribution of
a node to the simple text. For a `*withHTTPCode` it is what `SafeFormatError`
prints when the printer is not in detail mode. -/
def Message : GoError → String
  | .nil => ""
  | .node _ msg _ _ => msg
  | .ofWithHTTPCode cause code =>
    String.join ((withHTTPCode.mk cause code).SafeFormatError ⟨false, []⟩).1.out

/-- Modelled from the spec: a WireRecord of section 3, one per chain node. -/
structure WireRecord where
  /-- The type key of the node. -/
  typeKey : String
  /-- The short message fragment (message override). -/
  message : String
  /-- The detail strings. -/
  details : List String
  /-- The typed payload. -/
  payload : ProtoMessage
deriving DecidableEq, Repr

/-- Modelled from the spec: a RegistryEntry of section 3: a type key with its
encoder and decoder (`errbase.RegisterWrapperEncoder`,
`errbase.RegisterWrapperDecoder`). -/
structure RegistryEntry where
  /-- The registered type key. -/
  typeKey : String
  /-- The encoder registered for the key. -/
  encoder : GoError → Option (String × List String × ProtoMessage)
  /-- The decoder registered for the key. -/
  decoder : GoError → String → List String → ProtoMessage → Option GoError

/-- Modelled from the spec: the process-wide registry, at most one entry per key
(the first entry of a key is the one found). -/
abbrev Registry := List RegistryEntry

/-- The entry of a type key, if any. -/
def Registry.lookup (r : Registry) (k : String) : Option RegistryEntry :=
  r.find? fun ent => ent.typeKey == k

/-- The registry without the registration of one type key. -/
def Registry.remove (r : Registry) (k : String) : Registry :=
  r.filter fun ent => ent.typeKey != k

/-- The registry after `init()` of the source: `encodeWithHTTPCode` and
`decodeWithHTTPCode` registered under the type key of `*withHTTPCode`. -/
def init : Registry :=
  [⟨withHTTPCodeTypeKey, encodeWithHTTPCode, decodeWithHTTPCode⟩]

/-- Modelled from the spec: the encoding of one node (section 4.4): the
registered encoder of its type gives (message override, details, payload); with
no registered encoder the default encoder takes the `Message()` text as message
and as sole detail, with an empty payload. -/
def encodeNode (r : Registry) (e : GoError) : Option WireRecord :=
  match r.lookup (errbase.GetTypeKey e) with
  | some ent =>
    match ent.encoder e with
    | some (m, ds, p) => some ⟨errbase.GetTypeKey e, m, ds, p⟩
    | none => none
  | none => some ⟨errbase.GetTypeKey e, Message e, [Message e], .absent⟩

/-- Modelled from the spec: `errbase.EncodeError` (section 4.4): one WireRecord
per node of the chain, outermost first. -/
def errbase.EncodeError (r : Registry) : GoError → Option (List WireRecord)
  | .nil => some []
  | .node k m ds cause =>
    match encodeNode r (.node k m ds cause), errbase.EncodeError r cause with
    | some w, some ws => some (w :: ws)
    | _, _ => none
  | .ofWithHTTPCode cause code =>
    match encodeNode r (.ofWithHTTPCode cause code), errbase.EncodeError r cause with
    | some w, some ws => some (w :: ws)
    | _, _ => none

/-- Modelled from the spec: the GenericFallbackWrapper of section 3, built by
decode for a record whose type key has no local entry: message and details kept
verbatim, payload dropped, type key tagged `opaque:<original-key>`. -/
def GenericFallbackWrapper (cause : GoError) (w : WireRecord) : GoError :=
  .node ("opaque:" ++ w.typeKey) w.message w.details cause

/-- Modelled from the spec: the decoding of one record on top of the already
reconstructed cause (section 4.4): the registered decoder of the type key, or
the GenericFallbackWrapper when the key is not registered; a decoder that
fails makes the step fail. -/
def decodeNode (r : Registry) (cause : GoError) (w : WireRecord) : Option GoError :=
  match r.lookup w.typeKey with
  | some ent => ent.decoder cause w.message w.details w.payload
  | none => some (GenericFallbackWrapper cause w)

/-- Modelled from the spec: `errbase.DecodeError` (section 4.4): the records,
given outermost first, are processed innermost first, starting from an absent
cause; the failure of one step fails the whole decode. -/
def errbase.DecodeError (r : Registry) (ws : List WireRecord) : Option GoError :=
  ws.reverse.foldlM (fun cause w => decodeNode r cause w) GoError.nil

/-- The predicate `GetHTTPCode` hands to `markers.If`. -/
def codeOf (e : GoError) : Option Int :=
  match asWithHTTPCode e with
  | some w => some w.code
  | none => none

/-- A sample root cause (an error of another type, without cause). -/
def sampleRoot : GoError := .node "*errors.errorString" "boom" [] .nil

/-- A sample chain: a message wrapper over an HTTP code 404 over `sampleRoot`. -/
def sampleChain : GoError :=
  .node "*errors.withMessage" "ctx" [] (WrapWithHTTPCode sampleRoot 404)

/-- The wire round trip of one HTTP wrapper: `decodeWithHTTPCode` applied to
`cause` and to what `encodeWithHTTPCode` returns for
`WrapWithHTTPCode(cause, code)`. -/
def roundTrip (cause : GoError) (code : Int) : Option GoError :=
  match encodeWithHTTPCode (WrapWithHTTPCode cause code) with
  | some (m, ds, p) => decodeWithHTTPCode cause m ds p
  | none => none

/-- The detail lines a node prints through `SafeFormatError` on a fresh printer
in detail mode; `none` when the node is not a `*withHTTPCode`. -/
def verboseDetail (e : GoError) : Option (List String) :=
  (asWithHTTPCode e).map fun w => (w.SafeFormatError ⟨true, []⟩).1.out

/-- The chain in which every node is replaced by its GenericFallbackWrapper: what
decoding yields when no type of the chain is registered locally. -/
def degrade : GoError → GoError
  | .nil => .nil
  | .node k m _ cause => .node ("opaque:" ++ k) m [m] (degrade cause)
  | .ofWithHTTPCode cause code =>
    .node ("opaque:" ++ withHTTPCodeTypeKey) "" ["HTTP " ++ Sprintf_d code] (degrade cause)

/-- The node `n` rebuilt over another cause: same type, same own data. -/
def withCause : GoError → GoError → GoError
  | .nil, _ => .nil
  | .node k m ds _, cause => .node k m ds cause
  | .ofWithHTTPCode _ code, cause => .ofWithHTTPCode cause code

/-- Modelled from the spec: the registrant contract of section 6, for the node
`n`, a sending registry `s` and a receiving registry `r`: encoding `n` does not
fail and transmits the own message fragment of `n` as the message, and a decoder
registered in `r` for the type of `n` rebuilds, from what was transmitted, the
node `n` over the cause it is given. A node whose type is registered on neither
side satisfies it through the default encoder. -/
def honoursContract (s r : Registry) (n : GoError) : Prop :=
  ∃ w, encodeNode s n = some w ∧ w.message = Message n ∧
    ∀ ent, r.lookup (errbase.GetTypeKey n) = some ent →
      ∀ cause, ent.decoder cause w.message w.details w.payload = some (withCause n cause)

/-- A sample registrant for the type `*errors.withMessage` of `sampleChain`: it
transmits the message and the details and rebuilds the node from them. -/
def sampleEntry : RegistryEntry :=
  ⟨"*errors.withMessage",
    fun e =>
      match e with
      | .node _ m ds _ => some (m, ds, ProtoMessage.absent)
      | _ => none,
    fun cause m ds _ => some (.node "*errors.withMessage" m ds cause)⟩

/-- A sample sending registry: `sampleEntry` next to the registration of `init`. -/
def sampleSender : Registry := sampleEntry :: init

/-- An entry registered for the type `*errors.withMessage` whose decoder does not
rebuild the node it is registered for: it returns `WrapWithHTTPCode(cause, 999)`. -/
def foreignEntry : RegistryEntry :=
  ⟨"*errors.withMessage", fun _ => none, fun cause _ _ _ => some (WrapWithHTTPCode cause 999)⟩

/-! ## The formatter (section 4.3 of the spec) -/

/-- Modelled from the spec: the type name the verbose format shows for a node
(its dynamic type identity, section 4.3); `errors.FormatError` is declared
outside the sources. For a `*withHTTPCode` it is the Go type name. -/
def typeName : GoError → String
  | .nil => "<nil>"
  | .node k _ _ _ => k
  | .ofWithHTTPCode _ _ => "*exthttp.withHTTPCode"

/-- Modelled from the spec: the detail lines a node contributes to its verbose
frame (`DetailLines(node)` of section 6). For a `*withHTTPCode` they are what the
source `SafeFormatError` prints on a printer in detail mode. -/
def detailLines : GoError → List String
  | .nil => []
  | .node _ _ ds _ => ds
  | .ofWithHTTPCode cause code =>
    ((withHTTPCode.mk cause code).SafeFormatError ⟨true, []⟩).1.out

/-- The strings of a list, separated by `sep`. -/
def joinWith (sep : String) : List String → String
  | [] => ""
  | [a] => a
  | a :: b :: rest => a ++ sep ++ joinWith sep (b :: rest)

/-- Modelled from the spec: one step of the simple format (section 4.3): the
fragment of a node put before the text of its cause, with a single `": "`
between non-empty parts and nothing for an empty part. -/
def joinFragment (fragment rest : String) : String :=
  if fragment = "" then rest
  else if rest = "" then fragment
  else fragment ++ ": " ++ rest

/-- Modelled from the spec: the simple format of a chain (section 4.3), computed
by walking the chain outermost first. -/
def formatSimple : GoError → String
  | .nil => ""
  | .node k m ds cause => joinFragment (Message (.node k m ds cause)) (formatSimple cause)
  | .ofWithHTTPCode cause code =>
    joinFragment (Message (.ofWithHTTPCode cause code)) (formatSimple cause)

/-- The marker that opens frame number `n` of the verbose format: `(n)`, after
`Wraps: ` for every frame but the first. -/
def frameMarker (n : Nat) : String :=
  (if n = 1 then "" else "Wraps: ") ++ "(" ++ toString n ++ ")"

/-- Modelled from the spec: how the formatter of the library prints one frame
(section 4.3: the fragment of the node, followed by its detail lines): after the
marker it writes the fragment and then the detail text, and a detail line goes
to a new line, after `  | `, only when something of the frame was written before
it. So a frame with a fragment reads `(n) <fragment>` with every detail line on a
`  | ` line (the expected outputs of `TestFormatUnimp`), while a frame whose
fragment is empty carries its first detail line on the head line, `(n) <detail>`,
and a frame with neither is the bare marker. -/
def entryLines (marker fragment : String) (details : List String) : List String :=
  if fragment = "" then
    match details with
    | [] => [marker]
    | d :: ds => (marker ++ " " ++ d) :: ds.map fun l => "  | " ++ l
  else (marker ++ " " ++ fragment) :: details.map fun l => "  | " ++ l

/-- Modelled from the spec: the lines of frame number `n` of the verbose format,
for the node `e`. -/
def frameLines (n : Nat) (e : GoError) : List String :=
  entryLines (frameMarker n) (Message e) (detailLines e)

/-- Modelled from the spec: the frames of the verbose format (section 4.3), by
walking the chain outermost first from frame number `n`. -/
def verboseFrames : Nat → GoError → List String
  | _, .nil => []
  | n, .node k m ds cause =>
    frameLines n (.node k m ds cause) ++ verboseFrames (n + 1) cause
  | n, .ofWithHTTPCode cause code =>
    frameLines n (.ofWithHTTPCode cause code) ++ verboseFrames (n + 1) cause

/-- Modelled from the spec: the entries `(n) <type name>` of the trailing index
of the verbose format, one per frame, from frame number `n`. -/
def typeEntries : Nat → GoError → List String
  | _, .nil => []
  | n, .node k m ds cause =>
    ("(" ++ toString n ++ ") " ++ typeName (.node k m ds cause)) :: typeEntries (n + 1) cause
  | n, .ofWithHTTPCode cause code =>
    ("(" ++ toString n ++ ") " ++ typeName (.ofWithHTTPCode cause code)) ::
      typeEntries (n + 1) cause

/-- Modelled from the spec: the last line of the verbose format: `Error types:`
followed by the type index. -/
def typeLine (e : GoError) : String :=
  joinWith " " ("Error types:" :: typeEntries 1 e)

/-- Modelled from the spec: the lines of the verbose format of a chain (section
4.3): the simple line, the frames, then the line of the type index. -/
def verboseLines (e : GoError) : List String :=
  formatSimple e :: (verboseFrames 1 e ++ [typeLine e])

/-- Modelled from the spec: the verbose format of a chain (section 4.3). -/
def formatVerbose (e : GoError) : String :=
  joinWith "\n" (verboseLines e)

/-- The format verbs of section 4.3 and of `TestFormatUnimp`: `%s`, `%v`, `%+v`
and `%q`. -/
inductive Verb where
  /-- The verb `%s`. -/
  | s
  /-- The verb `%v`. -/
  | v
  /-- The verb `%+v`. -/
  | plusV
  /-- The verb `%q`. -/
  | q
deriving DecidableEq, Repr

/-- Modelled from the spec: `errors.FormatError` (section 4.3), the text written
for a verb. The string-quoting transform of `%q` (Go `strconv.Quote`, outside the
repository) is the parameter `quote`. -/
def FormatError (quote : String → String) (e : GoError) : Verb → String
  | .s => formatSimple e
  | .v => formatSimple e
  | .plusV => formatVerbose e
  | .q => quote (formatSimple e)

/-- Source: `func (w *withHTTPCode) Format(s fmt.State, verb rune)
{ errors.FormatError(w, s, verb) }`. -/
def withHTTPCode.Format (quote : String → String) (w : withHTTPCode) (verb : Verb) : String :=
  FormatError quote w.toError verb

/-- The non-empty message fragments of a chain, outermost first. -/
def fragments (e : GoError) : List String :=
  ((chain e).map Message).filter fun m => decide (m ≠ "")

/-- The frames of the verbose format, worded over the chain: the nodes of the
chain numbered from `n`, each giving the lines of its frame. -/
def framesOf (n : Nat) (e : GoError) : List String :=
  ((chain e).enumFrom n).flatMap fun p =>
    entryLines (frameMarker p.1) (Message p.2) (detailLines p.2)

/-- What the claim says of detail lines: every detail line of every node of the
chain stands in the verbose format on a line of its own, after `  | `. -/
def detailLinesAllPrefixed (e : GoError) : Prop :=
  ∀ n ∈ chain e, ∀ l ∈ detailLines n, ("  | " ++ l) ∈ verboseLines e

/-- The entries of the type index as the claim words them: `(n) <type name>` for
the nodes of the chain numbered from `n`. -/
def typeIndexOf (n : Nat) (e : GoError) : List String :=
  ((chain e).enumFrom n).map fun p => "(" ++ toString p.1 ++ ") " ++ typeName p.2

/-- The error of the test case `unimp` of `TestFormatUnimp`, as a node: type
`*issuelink.unimplementedError`, message `woo`, its two detail lines. -/
def testUnimp : GoError :=
  .node "*issuelink.unimplementedError" "woo" ["unimplemented", "issue: http://mysite"] .nil

/-- The error of the test case `unimp-details` of `TestFormatUnimp`. -/
def testUnimpDetails : GoError :=
  .node "*issuelink.unimplementedError" "woo"
    ["unimplemented", "issue: http://mysite", "detail: see more"] .nil

/-- The error of the test case `wrapper + unimp` of `TestFormatUnimp`: the test
wrapper `werrFmt` with message `waa` and a two-line payload over `testUnimp`. -/
def testWrapperUnimp : GoError :=
  .node "*issuelink_test.werrFmt" "waa" ["-- this is waa's", "multi-line payload"] testUnimp

/-! ## OS error predicates (`oserror`, exercised by `TestErrorPredicatesUnix`) -/

/-- Go standard library (outside the repository): the `syscall.Errno` values that
the predicates of the Go runtime classify, by name. -/
inductive Errno where
  /-- Operation not permitted. -/
  | EPERM
  /-- No such file or directory. -/
  | ENOENT
  /-- Resource temporarily unavailable. -/
  | EAGAIN
  /-- Permission denied. -/
  | EACCES
  /-- File exists. -/
  | EEXIST
  /-- Directory not empty. -/
  | ENOTEMPTY
  /-- Connection timed out. -/
  | ETIMEDOUT
deriving DecidableEq, Repr

/-- All the modelled errno values. -/
def Errno.all : List Errno :=
  [.EPERM, .ENOENT, .EAGAIN, .EACCES, .EEXIST, .ENOTEMPTY, .ETIMEDOUT]

/-- Go standard library: the text of `syscall.Errno.Error()`. -/
def Errno.Error : Errno → String
  | .EPERM => "operation not permitted"
  | .ENOENT => "no such file or directory"
  | .EAGAIN => "resource temporarily unavailable"
  | .EACCES => "permission denied"
  | .EEXIST => "file exists"
  | .ENOTEMPTY => "directory not empty"
  | .ETIMEDOUT => "connection timed out"

/-- A `syscall.Errno` seen as an `error` interface value: a root cause of type
`syscall.Errno` whose message is the errno text. -/
def Errno.toError (n : Errno) : GoError :=
  .node "syscall.Errno" n.Error [] .nil

/-- The type assertion `err.(syscall.Errno)`. -/
def asErrno (e : GoError) : Option Errno :=
  Errno.all.find? fun n => decide (n.toError = e)

/-- The error kinds the predicates test for (`ErrPermission`, `ErrExist`,
`ErrNotExist` of the Go runtime). -/
inductive OSErrorKind where
  /-- Permission denied. -/
  | permission
  /-- File already exists. -/
  | exist
  /-- File does not exist. -/
  | notExist
deriving DecidableEq, Repr

/-- Go standard library: `func (e Errno) Is(target error) bool`. -/
def Errno.Is (e : Errno) : OSErrorKind → Bool
  | .permission => decide (e = .EACCES) || decide (e = .EPERM)
  | .exist => decide (e = .EEXIST) || decide (e = .ENOTEMPTY)
  | .notExist => decide (e = .ENOENT)

/-- Go standard library: `func (e Errno) Timeout() bool` (`EWOULDBLOCK` is
`EAGAIN` on the platforms of the test). -/
def Errno.Timeout (e : Errno) : Bool :=
  decide (e = .EAGAIN) || decide (e = .ETIMEDOUT)

/-- Modelled from the spec: `errors.Wrap`, the `Wrap(cause, message)` of section
4.1: the no-error value is returned unchanged, otherwise a new outer node with
the message and the given cause. -/
def errors.Wrap (err : GoError) (msg : String) : GoError :=
  if err = .nil then .nil
  else .node "*errutil.withPrefix" msg [] err

/-- Modelled from the spec: a domain predicate built on `markers.If` (sections 4.2
and 6, classify OS error kind): some node of the chain is an errno that passes
`test`. -/
def oserror.classify (test : Errno → Bool) (err : GoError) : Bool :=
  (markers.If err fun e =>
    match asErrno e with
    | some n => if test n then some () else none
    | none => none).isSome

/-- Modelled from the spec: `oserror.IsPermission`. -/
def oserror.IsPermission (err : GoError) : Bool :=
  oserror.classify (fun n => n.Is .permission) err

/-- Modelled from the spec: `oserror.IsExist`. -/
def oserror.IsExist (err : GoError) : Bool :=
  oserror.classify (fun n => n.Is .exist) err

/-- Modelled from the spec: `oserror.IsNotExist`. -/
def oserror.IsNotExist (err : GoError) : Bool :=
  oserror.classify (fun n => n.Is .notExist) err

/-- Modelled from the spec: `oserror.IsTimeout`. -/
def oserror.IsTimeout (err : GoError) : Bool :=
  oserror.classify (fun n => n.Timeout) err

/-! ## Helper lemmas -/

theorem GetHTTPCode_eq (err : GoError) (d : Int) :
    GetHTTPCode err d = (markers.If err codeOf).getD d := by
  unfold GetHTTPCode
  change (match markers.If err codeOf with | some v => v | none => d) = _
  cases markers.If err codeOf <;> rfl

theorem If_eq_findSome {α : Type} (pred : GoError → Option α) (err : GoError) :
    markers.If err pred = (chain err).findSome? pred := by
  induction err with
  | nil => rfl
  | node k m ds cause ih =>
    simp only [markers.If, chain, List.findSome?_cons]
    cases pred (.node k m ds cause) <;> simp [ih]
  | ofWithHTTPCode cause code ih =>
    simp only [markers.If, chain, List.findSome?_cons]
    cases pred (.ofWithHTTPCode cause code) <;> simp [ih]

theorem If_unfold {α : Type} (pred : GoError → Option α) (err : GoError) :
    markers.If err pred =
      if err = .nil then none
      else match pred err with
        | some v => some v
        | none => markers.If (errbase.UnwrapOnce err) pred := by
  cases err <;> simp [markers.If, errbase.UnwrapOnce, withHTTPCode.Cause]

theorem chain_unfold (err : GoError) :
    chain err = if err = .nil then [] else err :: chain (errbase.UnwrapOnce err) := by
  cases err <;> simp [chain, errbase.UnwrapOnce, withHTTPCode.Cause]

theorem codeOf_eq_none_iff (e : GoError) : codeOf e = none ↔ isWithHTTPCode e = false := by
  cases e <;> simp [codeOf, isWithHTTPCode, asWithHTTPCode]

theorem GetHTTPCode_eq_head (err : GoError) (d : Int) :
    GetHTTPCode err d = (storedCodes err).head?.getD d := by
  rw [GetHTTPCode_eq, If_eq_findSome]
  have h : ∀ l : List GoError, l.findSome? codeOf =
      (l.filterMap fun n => (asWithHTTPCode n).map fun w => w.code).head? := by
    intro l
    induction l with
    | nil => rfl
    | cons x xs ih =>
      cases x <;> simp [List.findSome?_cons, List.filterMap_cons, codeOf, asWithHTTPCode, ih]
  rw [h]; rfl

theorem storedCodes_eq_nil_iff (err : GoError) :
    storedCodes err = [] ↔ ∀ n ∈ chain err, isWithHTTPCode n = false := by
  unfold storedCodes
  rw [List.filterMap_eq_nil_iff]
  constructor
  · intro h n hn
    have := h n hn
    cases n <;> simp_all [isWithHTTPCode, asWithHTTPCode]
  · intro h n hn
    have := h n hn
    cases n <;> simp_all [isWithHTTPCode, asWithHTTPCode]

theorem WrapWithHTTPCode_of_ne_nil (err : GoError) (code : Int) (h : err ≠ .nil) :
    WrapWithHTTPCode err code = .ofWithHTTPCode err code := by
  simp [WrapWithHTTPCode, h, withHTTPCode.toError]

theorem intOfUint32_uint32 (code : Int) (h0 : 0 ≤ code) (h1 : code < 4294967296) :
    intOfUint32 (uint32 code) = code := by
  unfold intOfUint32 uint32
  rw [Int.emod_eq_of_lt h0 h1]
  exact Int.toNat_of_nonneg h0

theorem DecodeError_nil (r : Registry) : errbase.DecodeError r [] = some .nil := rfl

theorem DecodeError_cons (r : Registry) (w : WireRecord) (ws : List WireRecord) :
    errbase.DecodeError r (w :: ws) =
      (errbase.DecodeError r ws).bind fun cause => decodeNode r cause w := by
  unfold errbase.DecodeError
  rw [List.reverse_cons, List.foldlM_append]
  cases List.foldlM (fun cause w => decodeNode r cause w) GoError.nil ws.reverse with
  | none => rfl
  | some c =>
    show List.foldlM (fun cause w => decodeNode r cause w) c [w] = decodeNode r c w
    rw [List.foldlM_cons]
    cases decodeNode r c w <;> rfl

theorem lookup_init_http :
    Registry.lookup init withHTTPCodeTypeKey =
      some ⟨withHTTPCodeTypeKey, encodeWithHTTPCode, decodeWithHTTPCode⟩ := by
  simp [Registry.lookup, init, List.find?]

theorem lookup_init_other (k : String) (h : k ≠ withHTTPCodeTypeKey) :
    Registry.lookup init k = none := by
  have h2 : (withHTTPCodeTypeKey == k) = false := by
    rw [beq_eq_false_iff_ne]
    exact fun e => h e.symm
  simp [Registry.lookup, init, List.find?, h2]

theorem lookup_remove_init (k : String) :
    Registry.lookup (Registry.remove init withHTTPCodeTypeKey) k = none := by
  simp [Registry.lookup, Registry.remove, init, List.filter]

theorem degrade_eq_nil_iff (c : GoError) : degrade c = .nil ↔ c = .nil := by
  cases c <;> simp [degrade]

theorem encode_decode_degrade (c : GoError) (hwf : wellFormed c = true) :
    ∃ ws, errbase.EncodeError init c = some ws ∧
      errbase.DecodeError (Registry.remove init withHTTPCodeTypeKey) ws = some (degrade c) := by
  induction c with
  | nil => exact ⟨[], rfl, rfl⟩
  | node k m ds cause ih =>
    simp only [wellFormed, Bool.and_eq_true, decide_eq_true_eq] at hwf
    obtain ⟨ws, hE, hD⟩ := ih hwf.2
    refine ⟨⟨k, m, [m], .absent⟩ :: ws, ?_, ?_⟩
    · simp [errbase.EncodeError, encodeNode, errbase.GetTypeKey, lookup_init_other k hwf.1,
        Message, hE]
    · rw [DecodeError_cons, hD]
      simp [decodeNode, lookup_remove_init, GenericFallbackWrapper, degrade]
  | ofWithHTTPCode cause code ih =>
    simp only [wellFormed, Bool.and_eq_true, decide_eq_true_eq] at hwf
    obtain ⟨ws, hE, hD⟩ := ih hwf.2
    refine ⟨⟨withHTTPCodeTypeKey, "", ["HTTP " ++ Sprintf_d code],
      .http ⟨uint32 code⟩⟩ :: ws, ?_, ?_⟩
    · simp [errbase.EncodeError, encodeNode, errbase.GetTypeKey, lookup_init_http,
        encodeWithHTTPCode, asWithHTTPCode, hE]
    · rw [DecodeError_cons, hD]
      simp [decodeNode, lookup_remove_init, GenericFallbackWrapper, degrade]

theorem chain_degrade_length (c : GoError) : (chain (degrade c)).length = (chain c).length := by
  induction c <;> simp_all [chain, degrade]

theorem Error_isSome (c : GoError) (hwf : wellFormed c = true) (hne : c ≠ .nil) :
    ∃ s, c.Error = some s := by
  induction c with
  | nil => exact absurd rfl hne
  | node k m ds cause ih =>
    simp only [wellFormed, Bool.and_eq_true, decide_eq_true_eq] at hwf
    by_cases hc : cause = .nil
    · exact ⟨m, by simp [GoError.Error, hc]⟩
    · obtain ⟨s, hs⟩ := ih hwf.2 hc
      exact ⟨if m = "" then s else m ++ ": " ++ s, by simp [GoError.Error, hc, hs]⟩
  | ofWithHTTPCode cause code ih =>
    simp only [wellFormed, Bool.and_eq_true, decide_eq_true_eq] at hwf
    obtain ⟨s, hs⟩ := ih hwf.2 hwf.1
    exact ⟨s, by simp [GoError.Error, hs]⟩

theorem Error_degrade (c : GoError) (hwf : wellFormed c = true) :
    (degrade c).Error = c.Error := by
  induction c with
  | nil => rfl
  | node k m ds cause ih =>
    simp only [wellFormed, Bool.and_eq_true, decide_eq_true_eq] at hwf
    simp only [degrade, GoError.Error, degrade_eq_nil_iff, ih hwf.2]
  | ofWithHTTPCode cause code ih =>
    simp only [wellFormed, Bool.and_eq_true, decide_eq_true_eq] at hwf
    obtain ⟨s, hs⟩ := Error_isSome cause hwf.2 hwf.1
    simp [degrade, GoError.Error, degrade_eq_nil_iff, ih hwf.2, hwf.1, hs]

theorem storedCodes_degrade (c : GoError) : storedCodes (degrade c) = [] := by
  rw [storedCodes_eq_nil_iff]
  induction c with
  | nil => simp [degrade, chain]
  | node k m ds cause ih => simpa [degrade, chain, isWithHTTPCode, asWithHTTPCode] using ih
  | ofWithHTTPCode cause code ih =>
    simpa [degrade, chain, isWithHTTPCode, asWithHTTPCode] using ih

theorem String_eq_empty_of_length (a : String) (h : a.length = 0) : a = "" := by
  apply String.ext
  exact List.length_eq_zero.mp h

theorem joinWith_ne_empty (sep : String) (l : List String) (hne : l ≠ [])
    (h : ∀ x ∈ l, x ≠ "") : joinWith sep l ≠ "" := by
  cases l with
  | nil => exact absurd rfl hne
  | cons a rest =>
    have ha : a ≠ "" := h a (List.mem_cons_self a rest)
    cases rest with
    | nil => simpa [joinWith] using ha
    | cons b rest2 =>
      intro hj
      apply ha
      apply String_eq_empty_of_length
      have hlen := congrArg String.length hj
      simp only [joinWith, String.length_append] at hlen
      have h0 : ("" : String).length = 0 := rfl
      omega

theorem Message_ofWithHTTPCode (cause : GoError) (code : Int) :
    Message (.ofWithHTTPCode cause code) = "" := by
  simp [Message, withHTTPCode.SafeFormatError, Printer.Detail, String.join]

theorem fragments_all_ne_empty (e : GoError) : ∀ x ∈ fragments e, x ≠ "" := by
  intro x hx
  simpa using (List.mem_filter.mp hx).2

theorem joinFragment_joinWith (m : String) (l : List String) (h : ∀ x ∈ l, x ≠ "") :
    joinFragment m (joinWith ": " l) =
      joinWith ": " (if m = "" then l else m :: l) := by
  by_cases hm : m = ""
  · simp [joinFragment, hm]
  · cases l with
    | nil => simp [joinFragment, hm, joinWith]
    | cons b rest =>
      have hne : joinWith ": " (b :: rest) ≠ "" :=
        joinWith_ne_empty ": " (b :: rest) (by simp) h
      simp [joinFragment, hm, hne, joinWith]

theorem formatSimple_eq_joinWith (e : GoError) :
    formatSimple e = joinWith ": " (fragments e) := by
  induction e with
  | nil => rfl
  | node k m ds cause ih =>
    rw [formatSimple, ih, joinFragment_joinWith _ _ (fragments_all_ne_empty cause)]
    by_cases hm : m = "" <;> simp [fragments, chain, Message, hm, List.filter_cons]
  | ofWithHTTPCode cause code ih =>
    rw [formatSimple, ih, joinFragment_joinWith _ _ (fragments_all_ne_empty cause),
      Message_ofWithHTTPCode]
    simp [fragments, chain, Message_ofWithHTTPCode, List.filter_cons]

theorem verboseFrames_eq_framesOf (n : Nat) (e : GoError) :
    verboseFrames n e = framesOf n e := by
  induction e generalizing n with
  | nil => rfl
  | node k m ds cause ih =>
    simp [verboseFrames, framesOf, chain, List.enumFrom_cons, List.flatMap_cons, frameLines,
      ih (n + 1)]
  | ofWithHTTPCode cause code ih =>
    simp [verboseFrames, framesOf, chain, List.enumFrom_cons, List.flatMap_cons, frameLines,
      ih (n + 1)]

theorem typeEntries_eq_typeIndexOf (n : Nat) (e : GoError) :
    typeEntries n e = typeIndexOf n e := by
  induction e generalizing n with
  | nil => rfl
  | node k m ds cause ih =>
    simp [typeEntries, typeIndexOf, chain, List.enumFrom_cons, ih (n + 1)]
  | ofWithHTTPCode cause code ih =>
    simp [typeEntries, typeIndexOf, chain, List.enumFrom_cons, ih (n + 1)]

theorem asErrno_toError (n : Errno) : asErrno n.toError = some n := by
  cases n <;> decide

theorem asErrno_Wrap (n : Errno) (m : String) : asErrno (errors.Wrap n.toError m) = none := by
  cases n <;> simp [asErrno, errors.Wrap, Errno.toError, Errno.all, List.find?]

theorem classify_toError (test : Errno → Bool) (n : Errno) :
    oserror.classify test n.toError = test n := by
  have h := asErrno_toError n
  unfold Errno.toError at h
  simp only [oserror.classify, Errno.toError, markers.If, h]
  cases test n <;> simp

theorem classify_Wrap (test : Errno → Bool) (n : Errno) (m : String) :
    oserror.classify test (errors.Wrap n.toError m) = test n := by
  have h := asErrno_toError n
  have hw := asErrno_Wrap n m
  unfold Errno.toError at h
  simp only [errors.Wrap, Errno.toError, reduceCtorEq, if_false] at hw ⊢
  simp only [oserror.classify, markers.If, hw, h]
  cases test n <;> simp

theorem encodeNode_typeKey (s : Registry) (e : GoError) (w : WireRecord)
    (h : encodeNode s e = some w) : w.typeKey = errbase.GetTypeKey e := by
  unfold encodeNode at h
  cases hl : Registry.lookup s (errbase.GetTypeKey e) with
  | none =>
    rw [hl] at h
    simp only [Option.some.injEq] at h
    rw [← h]
  | some ent =>
    rw [hl] at h
    cases he : ent.encoder e with
    | none => simp [he] at h
    | some t =>
      obtain ⟨m, ds, p⟩ := t
      simp only [he, Option.some.injEq] at h
      rw [← h]

theorem lookup_remove_self (s : Registry) (k : String) :
    Registry.lookup (Registry.remove s k) k = none := by
  unfold Registry.lookup Registry.remove
  rw [List.find?_eq_none]
  intro ent hent
  have h := (List.mem_filter.mp hent).2
  simpa using h

theorem storedCodes_node (k m : String) (ds : List String) (d : GoError) :
    storedCodes (.node k m ds d) = storedCodes d := by
  simp [storedCodes, chain, asWithHTTPCode]

theorem Error_node_congr (k k2 m : String) (ds ds2 : List String) (cause d : GoError)
    (hnil : d = .nil ↔ cause = .nil) (herr : d.Error = cause.Error) :
    (GoError.node k2 m ds2 d).Error = (GoError.node k m ds cause).Error := by
  by_cases hc : cause = .nil
  · have hd : d = .nil := hnil.2 hc
    simp [GoError.Error, hc, hd]
  · have hd : d ≠ .nil := fun h => hc (hnil.1 h)
    simp [GoError.Error, hc, hd, herr]

theorem encode_decode_general (s r : Registry) (c : GoError)
    (hwf : wellFormed c = true)
    (hs : ∃ ent, Registry.lookup s withHTTPCodeTypeKey = some ent ∧
      ent.encoder = encodeWithHTTPCode)
    (hr : Registry.lookup r withHTTPCodeTypeKey = none)
    (hH : ∀ n ∈ chain c, isWithHTTPCode n = false → honoursContract s r n) :
    ∃ ws d, errbase.EncodeError s c = some ws ∧ errbase.DecodeError r ws = some d ∧
      (d = .nil ↔ c = .nil) ∧ (chain d).length = (chain c).length ∧
      d.Error = c.Error ∧ storedCodes d = [] := by
  induction c with
  | nil => exact ⟨[], .nil, rfl, rfl, Iff.rfl, rfl, rfl, rfl⟩
  | node k m ds cause ih =>
    simp only [wellFormed, Bool.and_eq_true, decide_eq_true_eq] at hwf
    obtain ⟨ws, d, hE, hD, hnil, hlen, herr, hsc⟩ :=
      ih hwf.2 (fun n hn => hH n (by simp [chain, hn]))
    obtain ⟨w, hw, hmsg, hdec⟩ :=
      hH (.node k m ds cause) (by simp [chain]) (by simp [isWithHTTPCode, asWithHTTPCode])
    have hk : w.typeKey = k := encodeNode_typeKey s _ w hw
    have hm : w.message = m := hmsg
    have hnode : ∃ k2 ds2, decodeNode r d w = some (.node k2 m ds2 d) := by
      unfold decodeNode
      rw [hk]
      cases hl : Registry.lookup r k with
      | none => exact ⟨"opaque:" ++ k, w.details, by simp [GenericFallbackWrapper, hk, hm]⟩
      | some ent => exact ⟨k, ds, by simpa [withCause] using hdec ent hl d⟩
    obtain ⟨k2, ds2, hdn⟩ := hnode
    refine ⟨w :: ws, .node k2 m ds2 d, ?_, ?_, by simp, by simp [chain, hlen],
      Error_node_congr k k2 m ds ds2 cause d hnil herr, ?_⟩
    · simp [errbase.EncodeError, hw, hE]
    · rw [DecodeError_cons, hD]
      exact hdn
    · rw [storedCodes_node, hsc]
  | ofWithHTTPCode cause code ih =>
    simp only [wellFormed, Bool.and_eq_true, decide_eq_true_eq] at hwf
    obtain ⟨ws, d, hE, hD, hnil, hlen, herr, hsc⟩ :=
      ih hwf.2 (fun n hn => hH n (by simp [chain, hn]))
    obtain ⟨ent, hent, henc⟩ := hs
    have hd : d ≠ .nil := fun h => hwf.1 (hnil.1 h)
    refine ⟨⟨withHTTPCodeTypeKey, "", ["HTTP " ++ Sprintf_d code],
        .http ⟨uint32 code⟩⟩ :: ws,
      .node ("opaque:" ++ withHTTPCodeTypeKey) "" ["HTTP " ++ Sprintf_d code] d,
      ?_, ?_, by simp, by simp [chain, hlen], ?_, ?_⟩
    · simp [errbase.EncodeError, encodeNode, errbase.GetTypeKey, hent, henc,
        encodeWithHTTPCode, asWithHTTPCode, hE]
    · rw [DecodeError_cons, hD]
      simp [decodeNode, hr, GenericFallbackWrapper]
    · cases hde : d.Error with
      | none => simp [GoError.Error, hd, hde, ← herr]
      | some t => simp [GoError.Error, hd, hde, ← herr]
    · rw [storedCodes_node, hsc]

theorem sample_honoursContract :
    ∀ n ∈ chain sampleChain, isWithHTTPCode n = false →
      honoursContract sampleSender (Registry.remove sampleSender withHTTPCodeTypeKey) n := by
  intro n hn hhttp
  have hcases : n = sampleChain ∨ n = WrapWithHTTPCode sampleRoot 404 ∨ n = sampleRoot := by
    simpa [chain, sampleChain, sampleRoot, WrapWithHTTPCode, withHTTPCode.toError] using hn
  rcases hcases with h | h | h
  · subst h
    refine ⟨⟨"*errors.withMessage", "ctx", [], .absent⟩, by decide, by decide, ?_⟩
    intro ent hent cause
    have he : ent = sampleEntry := by
      have h2 : Registry.lookup (Registry.remove sampleSender withHTTPCodeTypeKey)
          "*errors.withMessage" = some sampleEntry := by
        simp [Registry.lookup, Registry.remove, sampleSender, init, sampleEntry,
          withHTTPCodeTypeKey, List.filter, List.find?]
      have h3 : errbase.GetTypeKey sampleChain = "*errors.withMessage" := rfl
      rw [h3, h2] at hent
      exact (Option.some.inj hent).symm
    subst he
    rfl
  · subst h
    exact absurd hhttp (by decide)
  · subst h
    refine ⟨⟨"*errors.errorString", "boom", ["boom"], .absent⟩, by decide, by decide, ?_⟩
    intro ent hent cause
    have h2 : Registry.lookup (Registry.remove sampleSender withHTTPCodeTypeKey)
        "*errors.errorString" = none := by
      simp [Registry.lookup, Registry.remove, sampleSender, init, sampleEntry,
        withHTTPCodeTypeKey, List.filter, List.find?]
    have h3 : errbase.GetTypeKey sampleRoot = "*errors.errorString" := rfl
    rw [h3, h2] at hent
    exact absurd hent (by simp)

theorem honoursContract_init (c : GoError) (hwf : wellFormed c = true) :
    ∀ n ∈ chain c, isWithHTTPCode n = false →
      honoursContract init (Registry.remove init withHTTPCodeTypeKey) n := by
  induction c with
  | nil => intro n hn; simp [chain] at hn
  | node k m ds cause ih =>
    simp only [wellFormed, Bool.and_eq_true, decide_eq_true_eq] at hwf
    intro n hn hhttp
    rcases List.mem_cons.mp hn with h | h
    · subst h
      refine ⟨⟨k, m, [m], .absent⟩, ?_, rfl, ?_⟩
      · simp [encodeNode, errbase.GetTypeKey, lookup_init_other k hwf.1, Message]
      · intro ent hent
        rw [lookup_remove_init] at hent
        exact absurd hent (by simp)
    · exact ih hwf.2 n h hhttp
  | ofWithHTTPCode cause code ih =>
    simp only [wellFormed, Bool.and_eq_true, decide_eq_true_eq] at hwf
    intro n hn hhttp
    rcases List.mem_cons.mp hn with h | h
    · subst h
      simp [isWithHTTPCode, asWithHTTPCode] at hhttp
    · exact ih hwf.2 n h hhttp

/-! ## The claims -/

/-- C1. Identity law: for every integer code, `WrapWithHTTPCode(nil, code)` is
nil, and the result is not a wrapper node. -/
theorem C1_wrap_nil_identity (code : Int) :
    WrapWithHTTPCode .nil code = .nil ∧ asWithHTTPCode (WrapWithHTTPCode .nil code) = none := by
  constructor <;> rfl

/-- C2. Predicate ordering: for a non-nil error `e`, codes `a`, `b` and default
`d`, `GetHTTPCode(WrapWithHTTPCode(WrapWithHTTPCode(e, b), a), d) = a`: the outer
code is returned, not the inner one and not the default. -/
theorem C2_outer_code_wins (e : GoError) (a b d : Int) (he : e ≠ .nil) :
    GetHTTPCode (WrapWithHTTPCode (WrapWithHTTPCode e b) a) d = a := by
  rw [WrapWithHTTPCode_of_ne_nil e b he,
    WrapWithHTTPCode_of_ne_nil _ a (by simp), GetHTTPCode_eq]
  simp [markers.If, codeOf, asWithHTTPCode]

theorem C2_outer_code_wins_witness :
    sampleRoot ≠ .nil ∧
      GetHTTPCode (WrapWithHTTPCode (WrapWithHTTPCode sampleRoot 500) 404) 200 = 404 :=
  ⟨by decide, C2_outer_code_wins sampleRoot 404 500 200 (by decide)⟩

/-- C3, as stated, fails: for the non-nil cause `sampleRoot` and the code `-1`
the wrapper decoded from the encoder's payload has the code `4294967295`, so its
detail line and the result of `GetHTTPCode` differ from the original's. -/
theorem C3_roundtrip_counterexample :
    sampleRoot ≠ .nil ∧
      roundTrip sampleRoot (-1) = some (GoError.ofWithHTTPCode sampleRoot 4294967295) ∧
      roundTrip sampleRoot (-1) ≠ some (WrapWithHTTPCode sampleRoot (-1)) ∧
      verboseDetail (GoError.ofWithHTTPCode sampleRoot 4294967295) =
        some ["http code: 4294967295"] ∧
      verboseDetail (WrapWithHTTPCode sampleRoot (-1)) = some ["http code: -1"] ∧
      GetHTTPCode (GoError.ofWithHTTPCode sampleRoot 4294967295) 0 = 4294967295 ∧
      GetHTTPCode (WrapWithHTTPCode sampleRoot (-1)) 0 = -1 := by
  decide

/-- C3, amended. Round-trip preservation for the HTTP wrapper: for every non-nil
cause and every code with `0 ≤ code < 2^32`, `decodeWithHTTPCode` applied to that
cause and to the output of `encodeWithHTTPCode` on `WrapWithHTTPCode(cause, code)`
returns a wrapper with the same cause and the same code, so its verbose detail
line `http code: <code>` and the result of `GetHTTPCode` are those of the
original. -/
theorem C3_roundtrip_in_uint32_range (cause : GoError) (code : Int)
    (hc : cause ≠ .nil) (h0 : 0 ≤ code) (h1 : code < 4294967296) :
    ∃ d, roundTrip cause code = some d ∧
      asWithHTTPCode d = some ⟨cause, code⟩ ∧
      d = WrapWithHTTPCode cause code ∧
      verboseDetail d = some ["http code: " ++ Sprintf_d code] ∧
      verboseDetail d = verboseDetail (WrapWithHTTPCode cause code) ∧
      ∀ defaultCode,
        GetHTTPCode d defaultCode = code ∧
        GetHTTPCode d defaultCode = GetHTTPCode (WrapWithHTTPCode cause code) defaultCode := by
  have hw := WrapWithHTTPCode_of_ne_nil cause code hc
  refine ⟨GoError.ofWithHTTPCode cause code, ?_, rfl, hw.symm, ?_, ?_, ?_⟩
  · simp [roundTrip, hw, encodeWithHTTPCode, asWithHTTPCode, decodeWithHTTPCode,
      withHTTPCode.toError, intOfUint32_uint32 code h0 h1]
  · simp [verboseDetail, asWithHTTPCode, withHTTPCode.SafeFormatError, Printer.Detail,
      Printer.Printf]
  · rw [hw]
  · intro defaultCode
    rw [hw, GetHTTPCode_eq]
    simp [markers.If, codeOf, asWithHTTPCode]

theorem C3_roundtrip_in_uint32_range_witness :
    sampleRoot ≠ .nil ∧ (0 : Int) ≤ 404 ∧ (404 : Int) < 4294967296 ∧
      ∃ d, roundTrip sampleRoot 404 = some d ∧
        asWithHTTPCode d = some ⟨sampleRoot, 404⟩ ∧
        d = WrapWithHTTPCode sampleRoot 404 ∧
        verboseDetail d = some ["http code: " ++ Sprintf_d 404] ∧
        verboseDetail d = verboseDetail (WrapWithHTTPCode sampleRoot 404) ∧
        ∀ defaultCode,
          GetHTTPCode d defaultCode = 404 ∧
          GetHTTPCode d defaultCode =
            GetHTTPCode (WrapWithHTTPCode sampleRoot 404) defaultCode :=
  ⟨by decide, by decide, by decide,
    C3_roundtrip_in_uint32_range sampleRoot 404 (by decide) (by decide) (by decide)⟩

/-- C4. `GetHTTPCode` finds the code anywhere in the stack of causes: when the
chain of `err` is `pre ++ w :: rest` with `w` a `withHTTPCode` of code `c` and no
node of `pre` (the nodes outside `w`) a `withHTTPCode`, then
`GetHTTPCode(err, d) = c` for every default `d`, whatever the length of `pre`. -/
theorem C4_code_found_at_any_depth (err cause : GoError) (c d : Int)
    (pre rest : List GoError)
    (hchain : chain err = pre ++ GoError.ofWithHTTPCode cause c :: rest)
    (hpre : ∀ n ∈ pre, isWithHTTPCode n = false) :
    GetHTTPCode err d = c := by
  rw [GetHTTPCode_eq, If_eq_findSome, hchain, List.findSome?_append]
  have hnone : pre.findSome? codeOf = none := by
    rw [List.findSome?_eq_none_iff]
    intro n hn
    exact (codeOf_eq_none_iff n).2 (hpre n hn)
  simp [hnone, List.findSome?_cons, codeOf, asWithHTTPCode]

theorem C4_code_found_at_any_depth_witness :
    chain sampleChain =
        [GoError.node "*errors.withMessage" "ctx" [] (WrapWithHTTPCode sampleRoot 404)] ++
          GoError.ofWithHTTPCode sampleRoot 404 :: [sampleRoot] ∧
      (∀ n ∈ [GoError.node "*errors.withMessage" "ctx" [] (WrapWithHTTPCode sampleRoot 404)],
        isWithHTTPCode n = false) ∧
      GetHTTPCode sampleChain 200 = 404 :=
  ⟨by decide, by decide,
    C4_code_found_at_any_depth sampleChain sampleRoot 404 200
      [GoError.node "*errors.withMessage" "ctx" [] (WrapWithHTTPCode sampleRoot 404)]
      [sampleRoot] (by decide) (by decide)⟩

/-- C5. Default on no match: for a chain with no `withHTTPCode` node, and for
`err = nil`, `GetHTTPCode(err, defaultCode) = defaultCode`; and `GetHTTPCode`
returns a value that is not a stored code of the chain only when the chain has
no `withHTTPCode` node. -/
theorem C5_default_iff_no_match (err : GoError) (defaultCode : Int) :
    GetHTTPCode .nil defaultCode = defaultCode ∧
      ((∀ n ∈ chain err, isWithHTTPCode n = false) →
        GetHTTPCode err defaultCode = defaultCode) ∧
      (GetHTTPCode err defaultCode ∉ storedCodes err →
        ∀ n ∈ chain err, isWithHTTPCode n = false) := by
  refine ⟨rfl, ?_, ?_⟩
  · intro h
    rw [GetHTTPCode_eq_head, (storedCodes_eq_nil_iff err).2 h]
    rfl
  · intro h
    rw [← storedCodes_eq_nil_iff]
    rw [GetHTTPCode_eq_head] at h
    cases hs : storedCodes err with
    | nil => rfl
    | cons x xs =>
      rw [hs] at h
      simp at h

theorem C5_default_iff_no_match_witness :
    ((∀ n ∈ chain sampleRoot, isWithHTTPCode n = false) ∧
        GetHTTPCode sampleRoot 200 = 200) ∧
      (GetHTTPCode sampleRoot 200 ∉ storedCodes sampleRoot ∧
        ∀ n ∈ chain sampleRoot, isWithHTTPCode n = false) :=
  ⟨⟨by decide, (C5_default_iff_no_match sampleRoot 200).2.1 (by decide)⟩,
    ⟨by decide, (C5_default_iff_no_match sampleRoot 200).2.2 (by decide)⟩⟩

/-- C6, as stated, fails: `sampleChain` has exactly one `withHTTPCode` node and
the registry `[foreignEntry]` has no entry for the `withHTTPCode` type key, but
its entry for the type of the outer node decodes that node as an HTTP wrapper:
on the decoded chain `GetHTTPCode` returns 999 and not the default, and the
`Error()` text has lost the fragment of the outer node. -/
theorem C6_any_registry_counterexample :
    wellFormed sampleChain = true ∧ (storedCodes sampleChain).length = 1 ∧
      (Registry.lookup [foreignEntry] withHTTPCodeTypeKey).isNone = true ∧
      (errbase.EncodeError init sampleChain).bind (errbase.DecodeError [foreignEntry]) =
        some (GoError.ofWithHTTPCode
          (GoError.node ("opaque:" ++ withHTTPCodeTypeKey) "" ["HTTP 404"]
            (GoError.node "opaque:*errors.errorString" "boom" ["boom"] GoError.nil)) 999) ∧
      GetHTTPCode (GoError.ofWithHTTPCode
          (GoError.node ("opaque:" ++ withHTTPCodeTypeKey) "" ["HTTP 404"]
            (GoError.node "opaque:*errors.errorString" "boom" ["boom"] GoError.nil)) 999)
        200 = 999 ∧
      GoError.Error (GoError.ofWithHTTPCode
          (GoError.node ("opaque:" ++ withHTTPCodeTypeKey) "" ["HTTP 404"]
            (GoError.node "opaque:*errors.errorString" "boom" ["boom"] GoError.nil)) 999) =
        some "boom" ∧
      sampleChain.Error = some "ctx: boom" := by
  decide

/-- C6, amended. Graceful degradation: a chain with exactly one `withHTTPCode`
node, encoded by a registry that holds the registration of `init` and decoded by
any registry that has no entry for the `withHTTPCode` type key, gives a chain
with the same number of nodes, whose `Error()` text is the original's, and on
which `GetHTTPCode` returns the default code for every default, provided the
entries of the two registries honour the registrant contract on the other nodes
of the chain (encoding does not fail and transmits the own fragment of the node;
a registered decoder rebuilds the encoded node over the cause it is given).
Nodes of unregistered types need nothing. -/
theorem C6_graceful_degradation_amended (s r : Registry) (c : GoError)
    (hwf : wellFormed c = true)
    (hone : (storedCodes c).length = 1)
    (hs : ∃ ent, Registry.lookup s withHTTPCodeTypeKey = some ent ∧
      ent.encoder = encodeWithHTTPCode)
    (hr : Registry.lookup r withHTTPCodeTypeKey = none)
    (hH : ∀ n ∈ chain c, isWithHTTPCode n = false → honoursContract s r n) :
    ∃ ws d, errbase.EncodeError s c = some ws ∧
      errbase.DecodeError r ws = some d ∧
      (chain d).length = (chain c).length ∧
      (∃ text, c.Error = some text ∧ d.Error = some text) ∧
      ∀ defaultCode, GetHTTPCode d defaultCode = defaultCode := by
  obtain ⟨ws, d, hE, hD, _, hlen, herr, hsc⟩ := encode_decode_general s r c hwf hs hr hH
  have hne : c ≠ .nil := by
    intro h
    rw [h] at hone
    simp [storedCodes, chain] at hone
  obtain ⟨text, ht⟩ := Error_isSome c hwf hne
  refine ⟨ws, d, hE, hD, hlen, ⟨text, ht, ?_⟩, ?_⟩
  · rw [herr, ht]
  · intro defaultCode
    rw [GetHTTPCode_eq_head, hsc]
    rfl

theorem C6_graceful_degradation_amended_witness :
    wellFormed sampleChain = true ∧ (storedCodes sampleChain).length = 1 ∧
      (∃ ent, Registry.lookup sampleSender withHTTPCodeTypeKey = some ent ∧
        ent.encoder = encodeWithHTTPCode) ∧
      Registry.lookup (Registry.remove sampleSender withHTTPCodeTypeKey)
        withHTTPCodeTypeKey = none ∧
      (Registry.lookup (Registry.remove sampleSender withHTTPCodeTypeKey)
        "*errors.withMessage").isSome = true ∧
      (∀ n ∈ chain sampleChain, isWithHTTPCode n = false →
        honoursContract sampleSender (Registry.remove sampleSender withHTTPCodeTypeKey) n) ∧
      ∃ ws d, errbase.EncodeError sampleSender sampleChain = some ws ∧
        errbase.DecodeError (Registry.remove sampleSender withHTTPCodeTypeKey) ws = some d ∧
        (chain d).length = (chain sampleChain).length ∧
        (∃ text, sampleChain.Error = some text ∧ d.Error = some text) ∧
        ∀ defaultCode, GetHTTPCode d defaultCode = defaultCode :=
  ⟨by decide, by decide,
    ⟨⟨withHTTPCodeTypeKey, encodeWithHTTPCode, decodeWithHTTPCode⟩, rfl, rfl⟩,
    lookup_remove_self sampleSender withHTTPCodeTypeKey, rfl, sample_honoursContract,
    C6_graceful_degradation_amended sampleSender
      (Registry.remove sampleSender withHTTPCodeTypeKey)
      sampleChain (by decide) (by decide)
      ⟨⟨withHTTPCodeTypeKey, encodeWithHTTPCode, decodeWithHTTPCode⟩, rfl, rfl⟩
      (lookup_remove_self sampleSender withHTTPCodeTypeKey) sample_honoursContract⟩

/-- C7. Encoder contract: on a node built by `WrapWithHTTPCode(err, code)` with
`err` non-nil, `encodeWithHTTPCode` does not fail and returns the empty message
override, a details list with the single element `"HTTP "` followed by the
decimal rendering of `code`, and a payload whose `Code` is `uint32(code)`: a
number below `2^32` congruent to `code` modulo `2^32`. -/
theorem C7_encoder_contract (err : GoError) (code : Int) (he : err ≠ .nil) :
    encodeWithHTTPCode (WrapWithHTTPCode err code) =
        some ("", ["HTTP " ++ Sprintf_d code], ProtoMessage.http ⟨uint32 code⟩) ∧
      uint32 code < 4294967296 ∧
      ((uint32 code : Nat) : Int) = code % 4294967296 := by
  refine ⟨?_, ?_, ?_⟩
  · simp [WrapWithHTTPCode_of_ne_nil err code he, encodeWithHTTPCode, asWithHTTPCode]
  · unfold uint32
    omega
  · unfold uint32
    omega

theorem C7_encoder_contract_witness :
    sampleRoot ≠ .nil ∧
      encodeWithHTTPCode (WrapWithHTTPCode sampleRoot 404) =
          some ("", ["HTTP " ++ Sprintf_d 404], ProtoMessage.http ⟨uint32 404⟩) ∧
        uint32 404 < 4294967296 ∧
        ((uint32 404 : Nat) : Int) = 404 % 4294967296 :=
  ⟨by decide, C7_encoder_contract sampleRoot 404 (by decide)⟩

/-- C8. Malformed payload: `decodeWithHTTPCode` fails (the panic of the type
assertion reaches its caller, no node is returned) exactly when the payload is
not an `EncodedHTTPCode`, in particular when it is absent; on an
`EncodedHTTPCode` payload it never fails and returns the wrapper of the given
cause. -/
theorem C8_decoder_fails_iff_malformed (cause : GoError) (msg : String)
    (details : List String) (payload : ProtoMessage) :
    (decodeWithHTTPCode cause msg details payload = none ↔
        ∀ wp, payload ≠ ProtoMessage.http wp) ∧
      decodeWithHTTPCode cause msg details ProtoMessage.absent = none ∧
      ∀ wp, decodeWithHTTPCode cause msg details (ProtoMessage.http wp) =
        some (withHTTPCode.mk cause (intOfUint32 wp.Code)).toError := by
  refine ⟨?_, rfl, fun _ => rfl⟩
  cases payload <;> simp [decodeWithHTTPCode]

/-- C9. The HTTP wrapper contributes no message fragment: for a non-nil `err`,
the `Error()` text of `WrapWithHTTPCode(err, code)` is exactly that of `err`;
outside detail mode `SafeFormatError` prints nothing and hands `err` on, so the
wrapper adds neither a fragment nor a separator to the simple format. -/
theorem C9_no_message_fragment (err : GoError) (code : Int) (he : err ≠ .nil) :
    (WrapWithHTTPCode err code).Error = err.Error ∧
      asWithHTTPCode (WrapWithHTTPCode err code) = some ⟨err, code⟩ ∧
      (withHTTPCode.mk err code).Error = err.Error ∧
      (∀ out, (withHTTPCode.mk err code).SafeFormatError ⟨false, out⟩ =
        (⟨false, out⟩, err)) := by
  rw [WrapWithHTTPCode_of_ne_nil err code he]
  exact ⟨rfl, rfl, rfl, fun _ => rfl⟩

theorem C9_no_message_fragment_witness :
    sampleRoot ≠ .nil ∧
      ((WrapWithHTTPCode sampleRoot 404).Error = sampleRoot.Error ∧
        asWithHTTPCode (WrapWithHTTPCode sampleRoot 404) = some ⟨sampleRoot, 404⟩ ∧
        (withHTTPCode.mk sampleRoot 404).Error = sampleRoot.Error ∧
        (∀ out, (withHTTPCode.mk sampleRoot 404).SafeFormatError ⟨false, out⟩ =
          (⟨false, out⟩, sampleRoot))) :=
  ⟨by decide, C9_no_message_fragment sampleRoot 404 (by decide)⟩

/-- C10. Cause of a wrapper: for a non-nil `err`, `Cause()` and `Unwrap()` of
`WrapWithHTTPCode(err, code)` both return `err`, and the chain of the wrapped
error is the chain of `err` with exactly one node, the wrapper, added on top. -/
theorem C10_cause_of_wrapper (err : GoError) (code : Int) (he : err ≠ .nil) :
    ∃ w, asWithHTTPCode (WrapWithHTTPCode err code) = some w ∧
      w.Cause = err ∧ w.Unwrap = err ∧
      errbase.UnwrapOnce (WrapWithHTTPCode err code) = err ∧
      chain (WrapWithHTTPCode err code) = WrapWithHTTPCode err code :: chain err ∧
      (chain (WrapWithHTTPCode err code)).length = (chain err).length + 1 := by
  rw [WrapWithHTTPCode_of_ne_nil err code he]
  exact ⟨⟨err, code⟩, rfl, rfl, rfl, rfl, rfl, rfl⟩

theorem C10_cause_of_wrapper_witness :
    sampleRoot ≠ .nil ∧
      ∃ w, asWithHTTPCode (WrapWithHTTPCode sampleRoot 404) = some w ∧
        w.Cause = sampleRoot ∧ w.Unwrap = sampleRoot ∧
        errbase.UnwrapOnce (WrapWithHTTPCode sampleRoot 404) = sampleRoot ∧
        chain (WrapWithHTTPCode sampleRoot 404) =
          WrapWithHTTPCode sampleRoot 404 :: chain sampleRoot ∧
        (chain (WrapWithHTTPCode sampleRoot 404)).length = (chain sampleRoot).length + 1 :=
  ⟨by decide, C10_cause_of_wrapper sampleRoot 404 (by decide)⟩

/-- C11. Detail contribution of the HTTP wrapper: `SafeFormatError` prints
exactly one line `http code: <decimal code>` when the printer is in detail mode,
prints nothing when it is not, and in both modes returns the cause of the wrapper
as the next error to format. -/
theorem C11_safe_format_error (w : withHTTPCode) (out : List String) :
    w.SafeFormatError ⟨true, out⟩ =
        (⟨true, out ++ ["http code: " ++ Sprintf_d w.code]⟩, w.cause) ∧
      w.SafeFormatError ⟨false, out⟩ = (⟨false, out⟩, w.cause) ∧
      (∀ p : Printer, (w.SafeFormatError p).2 = w.cause) ∧
      (∀ p : Printer, (w.SafeFormatError p).1.out.length =
        p.out.length + (if p.Detail then 1 else 0)) := by
  refine ⟨rfl, rfl, fun _ => rfl, ?_⟩
  intro p
  cases hd : p.Detail <;>
    simp [withHTTPCode.SafeFormatError, hd, Printer.Printf]

/-- C12, as stated, fails: the chain `WrapWithHTTPCode(sampleRoot, 404)`,
formatted with `%+v` through the `Format` method of the wrapper, has the detail
line `http code: 404` of its first frame on the head line, `(1) http code: 404`,
and on no line after `  | `: not every detail line is prefixed by `  | `. -/
theorem C12_detail_prefix_counterexample :
    asWithHTTPCode (WrapWithHTTPCode sampleRoot 404) = some ⟨sampleRoot, 404⟩ ∧
      (withHTTPCode.mk sampleRoot 404).Format (fun t => t) Verb.plusV =
        "boom\n(1) http code: 404\nWraps: (2) boom\nError types: (1) *exthttp.withHTTPCode (2) *errors.errorString" ∧
      verboseLines (WrapWithHTTPCode sampleRoot 404) =
        ["boom", "(1) http code: 404", "Wraps: (2) boom",
          "Error types: (1) *exthttp.withHTTPCode (2) *errors.errorString"] ∧
      detailLines (WrapWithHTTPCode sampleRoot 404) = ["http code: 404"] ∧
      ¬ detailLinesAllPrefixed (WrapWithHTTPCode sampleRoot 404) := by
  refine ⟨rfl, rfl, rfl, rfl, ?_⟩
  intro h
  have hmem := h (WrapWithHTTPCode sampleRoot 404) (by decide) "http code: 404" (by decide)
  revert hmem
  decide

/-- C12, amended. Simple and verbose layout of a chain: the simple format (`%s`
and equally `%v`) is the non-empty message fragments of the nodes joined by
`": "` outermost first (`waa` over `woo` gives `waa: woo`); the verbose format
(`%+v`) is the simple line, then the frames numbered from 1 outermost first,
every frame after the first introduced by `Wraps: (n)`, then `Error types:` with
one `(n) <type name>` entry per frame in the same order; in a frame with a
message fragment every detail line is prefixed by `  | `, while a frame whose
fragment is empty carries its first detail line on the head line. So the `Format`
method of the HTTP wrapper gives the simple text of its cause, and in verbose
mode the frame `(1) http code: <code>` followed by the frames of the cause from
number 2. The three expected outputs of `TestFormatUnimp` are reproduced. -/
theorem C12_format_layout_amended (quote : String → String) (e : GoError)
    (w : withHTTPCode) :
    (FormatError quote e .s = joinWith ": " (fragments e) ∧
        FormatError quote e .v = joinWith ": " (fragments e)) ∧
      FormatError quote e .plusV =
        joinWith "\n" (joinWith ": " (fragments e) ::
          (framesOf 1 e ++ [joinWith " " ("Error types:" :: typeIndexOf 1 e)])) ∧
      (typeIndexOf 1 e).length = (chain e).length ∧
      (w.Format quote .s = joinWith ": " (fragments w.cause) ∧
        w.Format quote .v = joinWith ": " (fragments w.cause)) ∧
      w.Format quote .plusV =
        joinWith "\n" (joinWith ": " (fragments w.cause) ::
          ("(1) http code: " ++ Sprintf_d w.code) ::
          (framesOf 2 w.cause ++
            [joinWith " " ("Error types:" :: "(1) *exthttp.withHTTPCode" ::
              typeIndexOf 2 w.cause)])) ∧
      (∀ k1 k2 ds1 ds2,
        formatSimple (.node k1 "waa" ds1 (.node k2 "woo" ds2 .nil)) = "waa: woo") ∧
      (∀ marker fragment details, fragment ≠ "" →
        entryLines marker fragment details =
          (marker ++ " " ++ fragment) :: details.map fun l => "  | " ++ l) ∧
      (∀ marker d ds,
        entryLines marker "" (d :: ds) = (marker ++ " " ++ d) :: ds.map fun l => "  | " ++ l) ∧
      formatVerbose testUnimp =
        "woo\n(1) woo\n  | unimplemented\n  | issue: http://mysite\nError types: (1) *issuelink.unimplementedError" ∧
      formatVerbose testUnimpDetails =
        "woo\n(1) woo\n  | unimplemented\n  | issue: http://mysite\n  | detail: see more\nError types: (1) *issuelink.unimplementedError" ∧
      formatVerbose testWrapperUnimp =
        "waa: woo\n(1) waa\n  | -- this is waa's\n  | multi-line payload\nWraps: (2) woo\n  | unimplemented\n  | issue: http://mysite\nError types: (1) *issuelink_test.werrFmt (2) *issuelink.unimplementedError" := by
  have hsimple : formatSimple w.toError = joinWith ": " (fragments w.cause) := by
    rw [withHTTPCode.toError, formatSimple, Message_ofWithHTTPCode, formatSimple_eq_joinWith]
    simp [joinFragment]
  have hhead : frameLines 1 w.toError = ["(1) http code: " ++ Sprintf_d w.code] := by
    have hlit : "(1)" ++ " " ++ "http code: " = "(1) http code: " := by decide
    have hm : frameMarker 1 = "(1)" := by decide
    simp only [frameLines, withHTTPCode.toError, Message_ofWithHTTPCode, detailLines,
      withHTTPCode.SafeFormatError, Printer.Detail, Printer.Printf, entryLines, hm,
      if_true, List.nil_append, List.map_nil]
    rw [← hlit, String.append_assoc, String.append_assoc, String.append_assoc]
  refine ⟨⟨formatSimple_eq_joinWith e, formatSimple_eq_joinWith e⟩, ?_, ?_, ⟨hsimple, hsimple⟩,
    ?_, ?_, ?_, fun _ _ _ => rfl, rfl, rfl, rfl⟩
  · show formatVerbose e = _
    rw [formatVerbose, verboseLines, typeLine, verboseFrames_eq_framesOf,
      typeEntries_eq_typeIndexOf, formatSimple_eq_joinWith]
  · simp [typeIndexOf]
  · show formatVerbose w.toError = _
    rw [formatVerbose, verboseLines, hsimple, typeLine]
    have hframes : verboseFrames 1 w.toError =
        ("(1) http code: " ++ Sprintf_d w.code) :: framesOf 2 w.cause := by
      rw [← verboseFrames_eq_framesOf]
      show frameLines 1 w.toError ++ verboseFrames 2 w.cause = _
      rw [hhead]
      rfl
    have htypes : typeEntries 1 w.toError =
        "(1) *exthttp.withHTTPCode" :: typeIndexOf 2 w.cause := by
      rw [← typeEntries_eq_typeIndexOf]
      rfl
    rw [hframes, htypes]
    rfl
  · intro k1 k2 ds1 ds2
    rfl
  · intro marker fragment details hf
    simp [entryLines, hf]

theorem C12_format_layout_amended_witness :
    ("woo" : String) ≠ "" ∧
      entryLines "(1)" "woo" ["unimplemented"] = ["(1) woo", "  | unimplemented"] ∧
      (withHTTPCode.mk sampleRoot 404).Format (fun t => t) Verb.plusV =
        joinWith "\n" (joinWith ": " (fragments sampleRoot) ::
          ("(1) http code: " ++ Sprintf_d 404) ::
          (framesOf 2 sampleRoot ++
            [joinWith " " ("Error types:" :: "(1) *exthttp.withHTTPCode" ::
              typeIndexOf 2 sampleRoot)])) :=
  ⟨by decide,
    (C12_format_layout_amended (fun t => t) sampleRoot ⟨sampleRoot, 404⟩).2.2.2.2.2.2.1
      "(1)" "woo" ["unimplemented"] (by decide),
    (C12_format_layout_amended (fun t => t) sampleRoot ⟨sampleRoot, 404⟩).2.2.2.2.1⟩

/-- C13. Quoted-simple mode has no independent logic: for every error, `%q`
yields the string-quoting of the `%s` output and `%v` yields the `%s` output;
so does the `Format` method of the HTTP wrapper, whose `%q` output is the
quoting of the simple text of its cause. -/
theorem C13_quoted_simple (quote : String → String) (e : GoError) (w : withHTTPCode) :
    FormatError quote e .q = quote (FormatError quote e .s) ∧
      FormatError quote e .v = FormatError quote e .s ∧
      w.Format quote .q = quote (w.Format quote .s) ∧
      w.Format quote .v = w.Format quote .s ∧
      w.Format quote .q = quote (formatSimple w.cause) := by
  refine ⟨rfl, rfl, rfl, rfl, ?_⟩
  simp [withHTTPCode.Format, FormatError, withHTTPCode.toError, formatSimple,
    Message_ofWithHTTPCode, joinFragment]

/-- C15. OS error predicates see through wrappers: for every message `m`,
`IsPermission(Wrap(EACCES, m))`, `IsExist(Wrap(ENOTEMPTY, m))`,
`IsNotExist(Wrap(ENOENT, m))` and `IsTimeout(Wrap(EAGAIN, m))` hold, and for
every errno root cause each predicate answers on the wrapped error what it
answers on the errno itself. -/
theorem C15_os_predicates_see_through_wrap (m : String) :
    oserror.IsPermission (errors.Wrap Errno.EACCES.toError m) = true ∧
      oserror.IsExist (errors.Wrap Errno.ENOTEMPTY.toError m) = true ∧
      oserror.IsNotExist (errors.Wrap Errno.ENOENT.toError m) = true ∧
      oserror.IsTimeout (errors.Wrap Errno.EAGAIN.toError m) = true ∧
      ∀ n : Errno,
        oserror.IsPermission (errors.Wrap n.toError m) = oserror.IsPermission n.toError ∧
        oserror.IsExist (errors.Wrap n.toError m) = oserror.IsExist n.toError ∧
        oserror.IsNotExist (errors.Wrap n.toError m) = oserror.IsNotExist n.toError ∧
        oserror.IsTimeout (errors.Wrap n.toError m) = oserror.IsTimeout n.toError := by
  refine ⟨?_, ?_, ?_, ?_, fun n => ⟨?_, ?_, ?_, ?_⟩⟩
  · rw [oserror.IsPermission, classify_Wrap]; decide
  · rw [oserror.IsExist, classify_Wrap]; decide
  · rw [oserror.IsNotExist, classify_Wrap]; decide
  · rw [oserror.IsTimeout, classify_Wrap]; decide
  · rw [oserror.IsPermission, oserror.IsPermission, classify_Wrap, classify_toError]
  · rw [oserror.IsExist, oserror.IsExist, classify_Wrap, classify_toError]
  · rw [oserror.IsNotExist, oserror.IsNotExist, classify_Wrap, classify_toError]
  · rw [oserror.IsTimeout, oserror.IsTimeout, classify_Wrap, classify_toError]

/-- C16. Wire truncation of the code: for every integer code, the wrapper decoded
from the payload of the encoder has the code `code mod 2^32`, a non-negative
number below `2^32`; it is the original code if and only if `0 ≤ code < 2^32`;
the detail string of the encoder shows the original signed code (`HTTP -1` for
the code `-1`, whose payload is `4294967295`). -/
theorem C16_wire_truncation (cause newCause : GoError) (code : Int) (m : String)
    (ds : List String) :
    (∃ p, encodeWithHTTPCode (withHTTPCode.mk cause code).toError =
          some ("", ["HTTP " ++ Sprintf_d code], p) ∧
        decodeWithHTTPCode newCause m ds p =
          some (withHTTPCode.mk newCause (code % 4294967296)).toError) ∧
      0 ≤ code % 4294967296 ∧ code % 4294967296 < 4294967296 ∧
      (code % 4294967296 = code ↔ 0 ≤ code ∧ code < 4294967296) ∧
      encodeWithHTTPCode (withHTTPCode.mk cause (-1)).toError =
        some ("", ["HTTP -1"], ProtoMessage.http ⟨4294967295⟩) := by
  refine ⟨⟨ProtoMessage.http ⟨uint32 code⟩, rfl, ?_⟩, by omega, by omega, by omega, ?_⟩
  · have h : intOfUint32 (uint32 code) = code % 4294967296 := by
      unfold intOfUint32 uint32
      exact Int.toNat_of_nonneg (by omega)
    simp [decodeWithHTTPCode, h]
  · have h1 : "HTTP " ++ Sprintf_d (-1) = "HTTP -1" := by decide
    have h2 : uint32 (-1) = 4294967295 := by decide
    simp only [encodeWithHTTPCode, withHTTPCode.toError, asWithHTTPCode, h1, h2]

/-- C17. The decoder ignores the transmitted text: for every cause, every
`EncodedHTTPCode` payload `p` and all message overrides and detail lists,
`decodeWithHTTPCode` returns the same result, the wrapper whose cause is the
given cause and whose code is `p.Code`. -/
theorem C17_decoder_ignores_text (cause : GoError) (p : EncodedHTTPCode)
    (m1 m2 : String) (ds1 ds2 : List String) :
    decodeWithHTTPCode cause m1 ds1 (ProtoMessage.http p) =
        decodeWithHTTPCode cause m2 ds2 (ProtoMessage.http p) ∧
      decodeWithHTTPCode cause m1 ds1 (ProtoMessage.http p) =
        some (withHTTPCode.mk cause (p.Code : Int)).toError ∧
      (∀ payload, decodeWithHTTPCode cause m1 ds1 payload =
        decodeWithHTTPCode cause m2 ds2 payload) := by
  exact ⟨rfl, rfl, fun _ => rfl⟩

/-- C18. Non-nil cause invariant: a `withHTTPCode` returned by `WrapWithHTTPCode`
has a non-nil cause, so `Cause()`, `Unwrap()` and `SafeFormatError` return a
non-nil error and `Error()` calls `Error()` on a non-nil cause; the same holds
for the wrapper `decodeWithHTTPCode` returns when its cause argument is
non-nil. -/
theorem C18_non_nil_cause (err cause : GoError) (code : Int) (w w2 : withHTTPCode)
    (m : String) (ds : List String) (payload : ProtoMessage)
    (hw : asWithHTTPCode (WrapWithHTTPCode err code) = some w)
    (hc : cause ≠ .nil)
    (hd : decodeWithHTTPCode cause m ds payload = some w2.toError) :
    (w.cause ≠ .nil ∧ w.Cause ≠ .nil ∧ w.Unwrap ≠ .nil ∧
        (∀ p, (w.SafeFormatError p).2 ≠ .nil) ∧ w.Error = w.cause.Error) ∧
      (w2.cause ≠ .nil ∧ w2.Cause ≠ .nil ∧ w2.Unwrap ≠ .nil ∧
        (∀ p, (w2.SafeFormatError p).2 ≠ .nil) ∧ w2.Error = w2.cause.Error) := by
  have h1 : w.cause ≠ .nil := by
    by_cases he : err = .nil
    · simp [WrapWithHTTPCode, he, asWithHTTPCode] at hw
    · rw [WrapWithHTTPCode_of_ne_nil err code he] at hw
      simp only [asWithHTTPCode, Option.some.injEq] at hw
      rw [← hw]
      exact he
  have h2 : w2.cause ≠ .nil := by
    cases payload with
    | http wp =>
      simp only [decodeWithHTTPCode, withHTTPCode.toError, Option.some.injEq,
        GoError.ofWithHTTPCode.injEq] at hd
      rw [← hd.1]
      exact hc
    | absent => simp [decodeWithHTTPCode] at hd
    | other t b => simp [decodeWithHTTPCode] at hd
  exact ⟨⟨h1, h1, h1, fun _ => h1, rfl⟩, ⟨h2, h2, h2, fun _ => h2, rfl⟩⟩

theorem C18_non_nil_cause_witness :
    asWithHTTPCode (WrapWithHTTPCode sampleRoot 404) = some ⟨sampleRoot, 404⟩ ∧
      sampleRoot ≠ .nil ∧
      decodeWithHTTPCode sampleRoot "" [] (ProtoMessage.http ⟨500⟩) =
        some (withHTTPCode.mk sampleRoot 500).toError ∧
      ((withHTTPCode.mk sampleRoot 404).cause ≠ .nil ∧
        (withHTTPCode.mk sampleRoot 404).Cause ≠ .nil ∧
        (withHTTPCode.mk sampleRoot 404).Unwrap ≠ .nil ∧
        (∀ p, ((withHTTPCode.mk sampleRoot 404).SafeFormatError p).2 ≠ .nil) ∧
        (withHTTPCode.mk sampleRoot 404).Error = (withHTTPCode.mk sampleRoot 404).cause.Error) ∧
      ((withHTTPCode.mk sampleRoot 500).cause ≠ .nil ∧
        (withHTTPCode.mk sampleRoot 500).Cause ≠ .nil ∧
        (withHTTPCode.mk sampleRoot 500).Unwrap ≠ .nil ∧
        (∀ p, ((withHTTPCode.mk sampleRoot 500).SafeFormatError p).2 ≠ .nil) ∧
        (withHTTPCode.mk sampleRoot 500).Error = (withHTTPCode.mk sampleRoot 500).cause.Error) :=
  ⟨by decide, by decide, by decide,
    C18_non_nil_cause sampleRoot sampleRoot 404 ⟨sampleRoot, 404⟩ ⟨sampleRoot, 500⟩ "" []
      (ProtoMessage.http ⟨500⟩) (by decide) (by decide) (by decide)⟩

end exthttp
